import Mathlib

/-!
A verification development for the PaperBit PDF generation engine
(`src/core/paper_bit.ts` and its utility modules).

The TypeScript source is shallowly embedded: JavaScript numbers are
modelled as exact rationals (`ℚ`) or integers, JavaScript strings as Lean
`String`s (the buffers are pure ASCII / Latin-1, where one UTF-16 unit is
one Lean `Char`, so `String.length` agrees with the JS `length`), byte
arrays (`Uint8Array`) as `List ℕ` with entries below 256, and code that
can throw as `Except`.  External collaborators (pako `deflate`,
`opentype.js` metrics, `@pdf-lib/upng` decoding) are parameters of the
embedded functions, exactly as the specification treats them
(external transcoder/metrics interfaces).
-/

namespace PaperBit

/-! ## JavaScript primitive helpers -/

/-- JavaScript `ToInt32`: reduce modulo `2^32` and interpret the result as a
signed 32-bit integer.  Used to model the result of the JS bitwise
operators `<<` and `|`, which operate on 32-bit signed integers. -/
def toS32 (n : ℕ) : ℤ :=
  let m : ℕ := n % 2 ^ 32
  if m < 2 ^ 31 then (m : ℤ) else (m : ℤ) - 2 ^ 32

/-! ## Image pipeline (`src/utils/image_transformer.ts`)

`getImageType`, `getImageDimensions`, `getPngDimensions`,
`getJpegDimensions` and `imageTransformer` are transcribed from the
source.  A `Uint8Array` is a `List ℕ`; an out-of-range JS index yields
`undefined`, modelled by `List.getElem?` returning `none`.  In arithmetic
contexts `undefined` coerces through `NaN` to `0` under `ToInt32`, which
`List.getD _ _ 0` reproduces. -/

inductive ImgType where
  | png
  | jpeg
deriving DecidableEq, Repr

/-- `getImageType` from the source.  Note the source chains the individual
byte comparisons of each signature with `||` (not `&&`), transcribed
verbatim here. -/
def getImageType (u : List ℕ) : Except String ImgType :=
  if u[0]? == some 0x89 || u[1]? == some 0x50 || u[2]? == some 0x4e || u[3]? == some 0x47 then
    .ok .png
  else if u[0]? == some 0xff || u[1]? == some 0xd8 then
    .ok .jpeg
  else
    .error "Unknown image type."

structure Dim where
  width : ℤ
  height : ℤ
deriving DecidableEq, Repr

/-- `getPngDimensions`: after re-checking the signature, read width and
height as big-endian 32-bit values at byte offsets 16–19 and 20–23.
The JS expression `(u[16] << 24) | (u[17] << 16) | (u[18] << 8) | u[19]`
is modelled by a natural-number shift/or chain followed by a single
`ToInt32`; for byte values (< 256) this agrees with the per-operator
32-bit semantics of JS. -/
def getPngDimensions (u : List ℕ) : Except String Dim :=
  if u[0]? != some 0x89 || u[1]? != some 0x50 || u[2]? != some 0x4e || u[3]? != some 0x47 then
    .error "Not a valid PNG file"
  else
    .ok { width := toS32 ((u.getD 16 0 <<< 24) ||| (u.getD 17 0 <<< 16) ||| (u.getD 18 0 <<< 8) ||| u.getD 19 0)
          height := toS32 ((u.getD 20 0 <<< 24) ||| (u.getD 21 0 <<< 16) ||| (u.getD 22 0 <<< 8) ||| u.getD 23 0) }

/-- The marker-scanning loop of `getJpegDimensions`.  The source's `while`
loop advances `offset` by at least 2 per iteration, so `u.length` is
enough fuel; if a segment-length byte read falls off the end of the
array the JS offset becomes `NaN` and the loop exits to the final
`throw`, modelled by the `none` match arms. -/
def jpegScan (u : List ℕ) : ℕ → ℕ → Except String Dim
  | _, 0 => .error "Coudn't calculate the dimensions of the Image."
  | off, fuel + 1 =>
    if off < u.length then
      if u.getD off 0 ≠ 0xff then
        .error "Coudn't calculate the dimensions of the Image."
      else
        let marker := u.getD (off + 1) 0
        if marker = 0xc0 ∨ marker = 0xc2 then
          .ok { height := toS32 ((u.getD (off + 5) 0 <<< 8) ||| u.getD (off + 6) 0)
                width := toS32 ((u.getD (off + 7) 0 <<< 8) ||| u.getD (off + 8) 0) }
        else
          match u[off + 2]?, u[off + 3]? with
          | some b2, some b3 => jpegScan u (off + 2 + (b2 <<< 8) + b3) fuel
          | _, _ => .error "Coudn't calculate the dimensions of the Image."
    else
      .error "Coudn't calculate the dimensions of the Image."

/-- `getJpegDimensions` from the source. -/
def getJpegDimensions (u : List ℕ) : Except String Dim :=
  if u[0]? != some 0xff || u[1]? != some 0xd8 then
    .error "Not a valid JPEG file"
  else
    jpegScan u 2 u.length

/-- `getImageDimensions` from the source.  Unlike `getImageType`, the
signature tests here use `&&`. -/
def getImageDimensions (u : List ℕ) : Except String Dim :=
  if u.length < 24 then
    .error "Invalid image binary."
  else if u[0]? == some 0x89 && u[1]? == some 0x50 && u[2]? == some 0x4e && u[3]? == some 0x47 then
    getPngDimensions u
  else if u[0]? == some 0xff && u[1]? == some 0xd8 then
    getJpegDimensions u
  else
    .error "Unsupported image format."

structure ImgResult where
  /-- the re-encoded stream; the source renders it to a JS string via
  `String.fromCharCode`, a byte-per-character encoding kept here as the
  byte list itself -/
  compressedImage : List ℕ
  type : ImgType
  length : ℕ
  width : ℤ
  height : ℤ
deriving DecidableEq, Repr

/-- The alpha-dropping loop of `imageTransformer`'s PNG branch
(`rgbData[j] = imageContent[i]` for `i` stepping by 4, `j` by 3),
modelled index-wise: output position `j` reads input position
`(j / 3) * 4 + j % 3`, out-of-range reads give 0 exactly as writing
`undefined` into a `Uint8Array` stores 0. -/
def rgbOfRgba (size : ℕ) (imageContent : List ℕ) : List ℕ :=
  (List.range size).map (fun j => imageContent.getD ((j / 3) * 4 + j % 3) 0)

/-- `imageTransformer` from the source, with the external collaborators
(`PNG.decode` of `@pdf-lib/upng` and pako `deflate`) as parameters.
The initial `fetch` is external; the fetched bytes are the argument. -/
def imageTransformer (pngDecode deflate : List ℕ → List ℕ) (u : List ℕ) :
    Except String ImgResult := do
  let imageType ← getImageType u
  let dims ← getImageDimensions u
  match imageType with
  | .png =>
    let imageContent := pngDecode u
    let rgbData := rgbOfRgba (dims.width.toNat * dims.height.toNat * 3) imageContent
    let compressedImage := deflate rgbData
    .ok { compressedImage := compressedImage
          type := .png
          length := compressedImage.length
          width := dims.width
          height := dims.height }
  | .jpeg =>
    .ok { compressedImage := u
          type := .jpeg
          length := u.length
          width := dims.width
          height := dims.height }

/-! Signature predicates as the specification words them ("classify source
bytes by leading signature bytes"): the PNG signature is the exact byte
sequence `0x89 0x50 0x4E 0x47` at offsets 0–3, the JPEG signature is
`0xFF 0xD8` at offsets 0–1.  These are the spec-side comparison
definitions for the classification claim. -/

def pngSignature (u : List ℕ) : Bool :=
  u[0]? == some 0x89 && u[1]? == some 0x50 && u[2]? == some 0x4e && u[3]? == some 0x47

def jpegSignature (u : List ℕ) : Bool :=
  u[0]? == some 0xff && u[1]? == some 0xd8

/-! ## Document state and text layout (`src/core/paper_bit.ts`)

JavaScript numbers on these paths are modelled as exact rationals.  The
glyph metrics provider (`calculateTextWidth` evaluated on a loaded
`opentype.js` font at the call's font size) is an external collaborator,
passed as a `measure : List Char → ℚ` parameter; the wrap loop applies it
to single characters and the emission loop to whole trimmed lines,
exactly as the source does. -/

inductive Align where
  | left
  | center
  | right
deriving DecidableEq, Repr

structure ViewBox where
  width : ℚ
  height : ℚ
  /-- `coordinates.x` (kept unscaled; the source multiplies by the scale
  factor only at emission). -/
  x : ℚ
  /-- `coordinates.y` (kept unscaled). -/
  y : ℚ
deriving DecidableEq, Repr

structure FontEntry where
  id : String
  resourceId : ℕ
  name : String
  url : String
deriving DecidableEq, Repr

/-- The options object of `insertText` / `text` with the source's
defaulting (source lines 360–387) already applied where the default is a
constant.  `viewBox := none` models both `undefined` and the `"page"`
sentinel, which the source treats identically.  The `color` triple is the
result of `hexToRgb(options.color ?? "#000000")`, whose default is black. -/
structure TextOptions where
  coordX : ℚ := 0
  coordY : ℚ := 0
  fontSize : ℚ := 13
  paddingFromSecondLine : ℚ := 0
  align : Align := .left
  viewBox : Option ViewBox := none
  font : Option String := none
  colorR : ℕ := 0
  colorG : ℕ := 0
  colorB : ℕ := 0
deriving DecidableEq, Repr

/-- The mutable document state of the `PaperBit` class that the drawing
calls touch.  The output buffer itself is only appended to at `build`
time, so it is not carried here; `objectCount` is the constant 4 and the
offset table is empty until `build` runs. -/
structure Doc where
  pageWidth : ℚ
  pageHeight : ℚ
  scaleFactor : ℚ
  marginHorizontal : ℚ
  marginVertical : ℚ
  fonts : List FontEntry
  pages : List String
  /-- starts at `-1`; the constructor's `insertPage` raises it to 0. -/
  currentPage : ℤ
  globalYTraker : ℚ
deriving DecidableEq, Repr

inductive JsError where
  /-- a thrown `TypeError` (e.g. reading a property of `undefined`) -/
  | typeError
  | error (msg : String)
deriving DecidableEq, Repr

/-- Zero-pad a natural number to `w` digits. -/
def padLeftZeros (w : ℕ) (n : ℕ) : String :=
  let s := toString n
  String.mk (List.replicate (w - s.length) '0') ++ s

/-- `sprintf "%.{prec}f"`: fixed-point formatting with `prec` decimals,
rounding to the nearest representable value (JS `toFixed`; the tie-break
direction differs from `round` only on exact negative half-ulp ties,
which no evaluated input hits). -/
def fmtFixed (prec : ℕ) (q : ℚ) : String :=
  let scaled : ℤ := round (q * ((10 : ℚ) ^ prec))
  let n := scaled.natAbs
  (if scaled < 0 then "-" else "")
    ++ toString (n / 10 ^ prec) ++ "." ++ padLeftZeros prec (n % 10 ^ prec)

/-- JS template-literal number rendering `${q}`.  Exact for integers (the
only case the theorems evaluate); non-integers are approximated by
fixed-point with trailing zeros trimmed, standing in for JS
shortest-round-trip float printing, which has no exact rational model. -/
def jsNum (q : ℚ) : String :=
  if q.den = 1 then toString q.num
  else
    let s := fmtFixed 6 q
    String.mk (s.data.reverse.dropWhile (· = '0') |>.reverse)

/-- JS `String.prototype.trim`: strip leading and trailing whitespace. -/
def trimChars (l : List Char) : List Char :=
  ((l.dropWhile Char.isWhitespace).reverse.dropWhile Char.isWhitespace).reverse

/-- JS array element assignment `l[i] = v`, which extends the array (with
holes, read back as `""` after the source's `undefined` guard) when `i`
is past the end.  A negative index (never reached: `currentPage` is ≥ 0
from construction on) stores a non-element property, leaving the array
unchanged. -/
def jsArraySet (l : List String) (i : ℤ) (v : String) : List String :=
  if i < 0 then l
  else if i.toNat < l.length then l.set i.toNat v
  else l ++ List.replicate (i.toNat - l.length) "" ++ [v]

/-- `writeOnPage` from the source: append `content` plus a newline to the
current page, initialising it to `""` if absent. -/
def writeOnPage (doc : Doc) (content : String) : Doc :=
  let cur := if doc.currentPage < 0 then "" else doc.pages.getD doc.currentPage.toNat ""
  { doc with pages := jsArraySet doc.pages doc.currentPage (cur ++ content ++ "\n") }

/-- `this.lineWidth = 0.200025` -/
def lineWidthConst : ℚ := 0.200025

/-- `insertPage` from the source: `pages[++currentPage] = ""` followed by
the baseline line-width operator. -/
def insertPage (doc : Doc) : Doc :=
  let cp := doc.currentPage + 1
  let doc := { doc with currentPage := cp, pages := jsArraySet doc.pages cp "" }
  writeOnPage doc (fmtFixed 2 (lineWidthConst * doc.scaleFactor) ++ " w")

inductive JsUnit where
  | pt
  | mm
  | cm
  | inch
  | other
deriving DecidableEq, Repr

/-- The `switch (globalOptions.unit)` of the constructor. -/
def scaleFactorOf : JsUnit → ℚ
  | .pt => 1
  | .mm => 72 / 25.4
  | .cm => 72 / 2.54
  | .inch => 72
  | .other => 1

/-- The constructor options.  `PageFormats` (the `constants` module) is
not part of the sources, so the looked-up format entry is carried as the
pair `formatWidth`/`formatHeight`. -/
structure PDFOptions where
  formatWidth : ℚ
  formatHeight : ℚ
  orientationPortrait : Bool
  unit : JsUnit
  marginHorizontal : ℚ
  marginVertical : ℚ
  /-- registered fonts as (name, url); the style field plays no role in
  the embedded code paths. -/
  fonts : List (String × String)
deriving DecidableEq, Repr

/-- One step of the constructor's font-registration loop:
`fonts[font.name] = { id: F(length+1), resourceId: objectCount, ... }`
on the name-keyed record (one entry per distinct name, first-insertion
order preserved, re-registration overwrites in place).  `objectCount` is
4 throughout the loop. -/
def registerFont (fonts : List FontEntry) (nm url : String) : List FontEntry :=
  let length := fonts.length
  let entry : FontEntry := { id := "F" ++ toString (length + 1), resourceId := 4, name := nm, url := url }
  if fonts.any (·.name == nm) then
    fonts.map (fun f => if f.name == nm then entry else f)
  else
    fonts ++ [entry]

/-- The document state assembled by the `PaperBit` constructor before its
final `insertPage()` call. -/
def mkDocBase (o : PDFOptions) : Doc :=
  { pageWidth := if o.orientationPortrait then o.formatWidth else o.formatHeight
    pageHeight := if o.orientationPortrait then o.formatHeight else o.formatWidth
    scaleFactor := scaleFactorOf o.unit
    marginHorizontal := o.marginHorizontal
    marginVertical := o.marginVertical
    fonts := o.fonts.foldl (fun fs p => registerFont fs p.1 p.2) []
    pages := []
    currentPage := -1
    globalYTraker := 2 * o.marginHorizontal }

/-- The `PaperBit` constructor body (after the buffer header assignment,
which only matters at `build` time). -/
def mkDoc (o : PDFOptions) : Doc :=
  insertPage (mkDocBase o)

/-- The constructor as a fallible call: its body contains no throwing
operation (in particular it performs no font-registry emptiness check),
so it always returns `ok`. -/
def mkPaperBit (o : PDFOptions) : Except JsError Doc :=
  .ok (mkDoc o)

/-! ### The character-greedy wrap loop (source lines 402–436) -/

structure WrapSt where
  lines : List (List Char)
  currentLine : List Char
  currentWidth : ℚ
  firstLineCompleted : Bool
deriving DecidableEq, Repr

/-- One iteration of the wrap loop for the character `c`. -/
def wrapStep (measure : List Char → ℚ) (width x pad : ℚ) (st : WrapSt) (c : Char) : WrapSt :=
  let charactersWidth := measure [c]
  if width ≤ st.currentWidth + charactersWidth + x
      + (if st.firstLineCompleted then pad else 0) then
    let lines := st.lines ++ [st.currentLine]
    { lines := lines
      currentLine := [c]
      currentWidth := charactersWidth
      firstLineCompleted :=
        if !st.firstLineCompleted && lines.length ≠ 0 then true else st.firstLineCompleted }
  else
    { st with
      currentLine := st.currentLine ++ [c]
      currentWidth := st.currentWidth + charactersWidth }

/-- The full wrap loop over the character array. -/
def wrapRun (measure : List Char → ℚ) (width x pad : ℚ) (text : List Char) : WrapSt :=
  text.foldl (wrapStep measure width x pad) ⟨[], [], 0, false⟩

/-- The wrapped lines: the loop's lines plus the trailing `currentLine`
if non-empty (source lines 434–436). -/
def wrapText (measure : List Char → ℚ) (width x pad : ℚ) (text : List Char) :
    List (List Char) :=
  let st := wrapRun measure width x pad text
  if st.currentLine.length ≠ 0 then st.lines ++ [st.currentLine] else st.lines

/-! ### The operator-emission loop (source lines 438–489) -/

structure EmitCtx where
  pageHeight : ℚ
  scaleFactor : ℚ
  marginVertical : ℚ
  viewBox : ViewBox
  fontSize : ℚ
  lineHeight : ℚ
  align : Align
  coordX : ℚ
  coordY : ℚ
  pad : ℚ
  firstLineCompleted : Bool
  isViewBoxPage : Bool
deriving DecidableEq, Repr

structure EmitSt where
  yTracker : ℚ
  maxLineWidth : ℚ
  buf : String
deriving DecidableEq, Repr

/-- `sprintf("BT %.2f %.2f Td (%s) Tj ET", x, y, trimmedLine)`: the
text-placement operator.  `%s` splices the trimmed line verbatim between
the parentheses — the source applies no escaping to it. -/
def tdOperator (x y : ℚ) (trimmed : List Char) : String :=
  "BT " ++ fmtFixed 2 x ++ " " ++ fmtFixed 2 y ++ " Td (" ++ String.mk trimmed ++ ") Tj ET"

/-- One iteration of the emission loop for line number `i` (empty lines
are skipped before the cursor advances). -/
def emitLine (measure : List Char → ℚ) (ctx : EmitCtx) (st : EmitSt) (i : ℕ)
    (line : List Char) : EmitSt :=
  if line.length = 0 then st
  else
    let yTracker := st.yTracker + ctx.lineHeight
    let lineWidth := measure (trimChars line)
    let maxLineWidth := max st.maxLineWidth lineWidth
    let xCoordinate : ℚ :=
      match ctx.align with
      | .center =>
        (ctx.viewBox.width - lineWidth
          + (if ctx.isViewBoxPage then 2 * ctx.marginVertical else 0)) / 2
      | .right =>
        ctx.viewBox.width - lineWidth + (if ctx.isViewBoxPage then ctx.marginVertical else 0)
      | .left =>
        ctx.coordX + (if ctx.isViewBoxPage then ctx.marginVertical else 0)
          + (if 0 < i ∧ ctx.firstLineCompleted then ctx.pad else 0)
    let op := tdOperator (xCoordinate + ctx.viewBox.x * ctx.scaleFactor)
      ((ctx.pageHeight - yTracker - ctx.coordY) * ctx.scaleFactor) (trimChars line)
    { yTracker := yTracker, maxLineWidth := maxLineWidth, buf := st.buf ++ op ++ "\n" }

/-- The emission loop over the indexed lines. -/
def emitLines (measure : List Char → ℚ) (ctx : EmitCtx) (st : EmitSt)
    (l : List (ℕ × List Char)) : EmitSt :=
  l.foldl (fun s p => emitLine measure ctx s p.1 p.2) st

structure TextResult where
  buffer : String
  height : ℚ
  width : ℚ
  isViewBoxPage : Bool
deriving DecidableEq, Repr

/-- The effective viewbox of a `text` call (source lines 371–387): the
page interior minus margins for the sentinel, and the caller's rectangle
with width and height scaled (coordinates unscaled) otherwise. -/
def effViewBox (doc : Doc) (opts : TextOptions) : ViewBox :=
  match opts.viewBox with
  | none =>
    { height := doc.pageHeight - 2 * doc.marginHorizontal
      width := doc.pageWidth - 2 * doc.marginVertical
      x := 0
      y := 0 }
  | some vb =>
    { width := vb.width * doc.scaleFactor
      height := vb.height * doc.scaleFactor
      x := vb.x
      y := vb.y }

/-- The vertical cursor a `text` call starts from: the document's running
tracker for the page sentinel, the viewbox's own y origin otherwise
(spec-side definition, used to state the consumed-height claim). -/
def startCursor (doc : Doc) (opts : TextOptions) : ℚ :=
  match opts.viewBox with
  | none => doc.globalYTraker
  | some vb => vb.y

/-- The final vertical cursor of the emission loop, as the specification
describes it: the starting cursor advanced by one line height per
non-empty wrapped line (spec-side definition for the consumed-height
claim). -/
def finalCursor (y0 lineHeight : ℚ) (lines : List (List Char)) : ℚ :=
  y0 + lineHeight * ((lines.countP (fun l => !l.isEmpty) : ℕ) : ℚ)

/-- The private `text` method: option defaulting, font resolution, wrap,
and operator emission.  With an empty font registry the defaulting line
`options?.font ?? this.fonts[Object.keys(this.fonts)[0]].name` (or, when
a font name was passed, the destructuring of
`this.fonts[font] ?? this.fonts[Object.keys(this.fonts)[0]]`)
dereferences `undefined` and throws a `TypeError`.  The `fetch`/`parse`
of the font program only feeds the external metrics function and is
absorbed into `measure`. -/
def textLayout (doc : Doc) (measure : List Char → ℚ) (text : List Char)
    (opts : TextOptions) : Except JsError TextResult :=
  match doc.fonts with
  | [] => .error .typeError
  | f0 :: _ =>
    let fontName := opts.font.getD f0.name
    let fe := (doc.fonts.find? (·.name == fontName)).getD f0
    let lineHeight : ℚ := (⌊opts.fontSize / 0.75⌋ : ℤ)
    let isViewBoxPage := opts.viewBox.isNone
    let viewBox : ViewBox := effViewBox doc opts
    let yTracker0 := if isViewBoxPage then doc.globalYTraker else viewBox.y
    let st := wrapRun measure viewBox.width opts.coordX opts.paddingFromSecondLine text
    let lines := if st.currentLine.length ≠ 0 then st.lines ++ [st.currentLine] else st.lines
    let header :=
      fmtFixed 3 ((opts.colorR : ℚ) / 255) ++ " " ++ fmtFixed 3 ((opts.colorG : ℚ) / 255)
        ++ " " ++ fmtFixed 3 ((opts.colorB : ℚ) / 255) ++ " rg\nBT\n/" ++ fe.id ++ " "
        ++ jsNum (opts.fontSize * doc.scaleFactor) ++ " Tf ET\n"
    let ctx : EmitCtx :=
      { pageHeight := doc.pageHeight
        scaleFactor := doc.scaleFactor
        marginVertical := doc.marginVertical
        viewBox := viewBox
        fontSize := opts.fontSize
        lineHeight := lineHeight
        align := opts.align
        coordX := opts.coordX
        coordY := opts.coordY
        pad := opts.paddingFromSecondLine
        firstLineCompleted := st.firstLineCompleted
        isViewBoxPage := isViewBoxPage }
    let fin := emitLines measure ctx { yTracker := yTracker0, maxLineWidth := 0, buf := header }
      lines.enum
    .ok
      { buffer := fin.buf
        height := fin.yTracker - viewBox.y + lineHeight / 2
        width := fin.maxLineWidth
        isViewBoxPage := isViewBoxPage }

/-- The public `insertText`: lay the text out, append the operators to the
current page, and for the page-sentinel viewbox store the returned height
in the document's vertical tracker. -/
def insertText (doc : Doc) (measure : List Char → ℚ) (text : List Char)
    (opts : TextOptions) : Except JsError Doc :=
  match textLayout doc measure text opts with
  | .error e => .error e
  | .ok r =>
    let doc := writeOnPage doc r.buffer
    if r.isViewBoxPage then
      .ok { doc with globalYTraker := r.height }
    else
      .ok doc

/-! ### Finalization: `build` (source lines 148–266) and `putFont`
(lines 268–301)

The build pass appends objects to the buffer while recording offsets.
Besides the buffer, offsets and object counter of the source, the
embedding keeps a trace field `objects` listing, for each emitted object
number, which emission site produced it — metadata that lets the theorems
speak about "the Page objects of the cross-reference table" without
parsing the buffer back. -/

inductive ObjKind where
  | catalog
  | info
  | pagesTree
  | resources
  | page
  | contents
  | font
  | fontDescriptor
  | fontFile
deriving DecidableEq, Repr

structure BuildSt where
  buffer : String
  /-- the offset table, newest entry first (`offsets[i] = v` prepends) -/
  offsets : List (ℕ × ℕ)
  objectCount : ℕ
  /-- embedding-side emission trace: object number and emission site -/
  objects : List (ℕ × ObjKind)
deriving DecidableEq, Repr

def offsetsSet (l : List (ℕ × ℕ)) (i v : ℕ) : List (ℕ × ℕ) := (i, v) :: l

def offsetsGet (l : List (ℕ × ℕ)) (i : ℕ) : ℕ :=
  ((l.find? (fun p => p.1 == i)).map Prod.snd).getD 0

/-- `write`: append a line to the buffer. -/
def bwrite (st : BuildSt) (content : String) : BuildSt :=
  { st with buffer := st.buffer ++ content ++ "\n" }

/-- `createObject`: record the current buffer length as the new object's
offset, then write the `n 0 obj` header. -/
def createObject (kind : ObjKind) (st : BuildSt) : BuildSt :=
  let n := st.objectCount + 1
  let st :=
    { st with
      objectCount := n
      offsets := offsetsSet st.offsets n st.buffer.length
      objects := st.objects ++ [(n, kind)] }
  bwrite st (toString n ++ " 0 obj")

def jsTrimStr (s : String) : String := String.mk (trimChars s.data)

/-- `createStream`. -/
def createStream (data : String) (st : BuildSt) : BuildSt :=
  bwrite (bwrite (bwrite st "stream") (jsTrimStr data)) "endstream"

/-- `"%PDF-1.7\n%\xBA\xDF\xAC\xE0\n"` -/
def pdfHeader : String :=
  "%PDF-1.7\n%" ++ String.mk [Char.ofNat 0xBA, Char.ofNat 0xDF, Char.ofNat 0xAC, Char.ofNat 0xE0]
    ++ "\n"

/-- The wall-clock timestamp sampled by `build` (external input). -/
structure Timestamp where
  year : ℕ
  month : ℕ
  day : ℕ
  hour : ℕ
  minute : ℕ
  second : ℕ
deriving DecidableEq, Repr

/-- `sprintf "%02d%02d%02d%02d%02d%02d"` over the timestamp fields. -/
def timestampStr (t : Timestamp) : String :=
  padLeftZeros 2 t.year ++ padLeftZeros 2 t.month ++ padLeftZeros 2 t.day
    ++ padLeftZeros 2 t.hour ++ padLeftZeros 2 t.minute ++ padLeftZeros 2 t.second

/-- The output of the external font transcoder `ttfTransformer` as
`putFont` consumes it. -/
structure FontProgram where
  fontData : String
  ascent : ℤ
  descent : ℤ
  capHeight : ℤ
  firstChar : ℤ
  flags : ℤ
  italicAngle : ℤ
  lastChar : ℤ
  stemV : ℤ
deriving DecidableEq, Repr

/-- `putFont` from the source.  Note that for the font-file stream object
the source overwrites the offset recorded by `createObject` with the
buffer length *after* the `n 0 obj` header has been written
(`this.offsets[this.objectCount] = this.buffer.length`), transcribed
verbatim here.  Returns the updated state and the font entry with its
newly assigned `resourceId`. -/
def putFont (tc : FontEntry → FontProgram) (st : BuildSt) (font : FontEntry) :
    BuildSt × FontEntry :=
  let fp := tc font
  let st := createObject .font st
  let font := { font with resourceId := st.objectCount }
  let st := bwrite st ("<</BaseFont/" ++ font.name
    ++ "/Encoding/WinAnsiEncoding/FontDescriptor " ++ toString (st.objectCount + 1)
    ++ " 0 R /Subtype/TrueType/Type/Font>>")
  let st := bwrite st "endobj\n"
  let st := createObject .fontDescriptor st
  let st := bwrite st ("<</Ascent " ++ toString fp.ascent ++ "/BaseFont /" ++ font.name
    ++ "/CapHeight " ++ toString fp.capHeight ++ "/Descent " ++ toString fp.descent
    ++ "/FirstChar " ++ toString fp.firstChar ++ "/Flags " ++ toString fp.flags
    ++ "/FontBBox []/FontFile2 " ++ toString (st.objectCount + 1) ++ " 0 R /ItalicAngle "
    ++ toString fp.italicAngle ++ "/LastChar " ++ toString fp.lastChar ++ "/StemV "
    ++ toString fp.stemV ++ "/Type/FontDescriptor>>")
  let st := bwrite st "endobj\n"
  let st := createObject .fontFile st
  let st := { st with offsets := offsetsSet st.offsets st.objectCount st.buffer.length }
  let st := bwrite st ("<</Filter/FlateDecode/Length " ++ toString fp.fontData.length ++ ">>")
  let st := createStream fp.fontData st
  let st := bwrite st "endobj\n"
  (st, font)

/-- JS `String.prototype.replace` with a string pattern: replace the
first occurrence only (the replacement strings here contain no `$`
patterns). -/
def replaceFirstChars (pat rep : List Char) : List Char → List Char
  | [] => if pat.isPrefixOf ([] : List Char) then rep else []
  | c :: rest =>
    if pat.isPrefixOf (c :: rest) then rep ++ (c :: rest).drop pat.length
    else c :: replaceFirstChars pat rep rest

def replaceFirst (s pat rep : String) : String :=
  String.mk (replaceFirstChars pat.data rep.data s.data)

/-- The body of the per-page loop of `build`: a Page object referencing
the following Contents stream object, then the compressed content
stream.  `compress` is `compressString` with the external pako `deflate`
inside: it returns the compressed bytes (as a byte-per-character string)
and their count. -/
def buildPageStep (compress : String → String × ℕ) (pw ph : ℚ) (st : BuildSt)
    (pageContent : String) : BuildSt :=
  let st := createObject .page st
  let st := bwrite st ("<</Contents " ++ toString (st.objectCount + 1)
    ++ " 0 R /MediaBox[0 0 " ++ fmtFixed 2 pw ++ " " ++ fmtFixed 2 ph
    ++ "]/Parent 3 0 R /Resources 4 0 R /Type/Page>>")
  let st := bwrite st "endobj\n"
  let compressed := compress pageContent
  let st := createObject .contents st
  let st := bwrite st ("<</Filter/FlateDecode/Length " ++ toString compressed.2 ++ ">>")
  let st := createStream compressed.1 st
  bwrite st "endobj\n"

/-- The fixed leading objects of `build`: catalog (1), metadata (2),
page-tree root (3) and the resource dictionary (4) holding the fonts
placeholder. -/
def buildFixed (ts : Timestamp) (pageCount : ℕ) (st : BuildSt) : BuildSt :=
  let st := { st with offsets := offsetsSet st.offsets 1 st.buffer.length,
                      objects := st.objects ++ [(1, .catalog)] }
  let st := bwrite st "1 0 obj"
  let st := bwrite st "<</Pages 3 0 R /Type/Catalog>>"
  let st := bwrite st "endobj\n"
  let st := { st with offsets := offsetsSet st.offsets 2 st.buffer.length,
                      objects := st.objects ++ [(2, .info)] }
  let st := bwrite st "2 0 obj"
  let st := bwrite st ("<</CreationDate (D:" ++ timestampStr ts ++ ")/ModDate (D:"
    ++ timestampStr ts ++ ")/Author(PaperBit)/Creator(PaperBit)/Producer(PaperBit)>>")
  let st := bwrite st "endobj\n"
  let st := { st with offsets := offsetsSet st.offsets 3 st.buffer.length,
                      objects := st.objects ++ [(3, .pagesTree)] }
  let kids := (List.range pageCount).foldl
    (fun s i => s ++ toString (5 + 2 * i) ++ " 0 R ") "/Kids [ "
  let st := bwrite st "3 0 obj"
  let st := bwrite st ("<</Count " ++ toString pageCount ++ kids ++ "]/Type/Pages>>")
  let st := bwrite st "endobj\n"
  let st := { st with offsets := offsetsSet st.offsets 4 st.buffer.length,
                      objects := st.objects ++ [(4, .resources)] }
  let st := bwrite st "4 0 obj"
  let st := bwrite st
    "<</Font<<____FONTS_PLACEHOLDER____>>/ProcSet[/PDF/Text/ImageB/ImageC/ImageI]/XObject<<>>>>"
  bwrite st "endobj\n"

/-- The font-embedding loop of `build`, collecting the updated
`resourceId`s. -/
def buildFonts (tc : FontEntry → FontProgram) (p : BuildSt × List FontEntry)
    (fonts : List FontEntry) : BuildSt × List FontEntry :=
  fonts.foldl (fun q f =>
    let r := putFont tc q.1 f
    (r.1, q.2 ++ [r.2])) p

/-- The cross-reference table and trailer of `build`. -/
def buildXref (st : BuildSt) : BuildSt :=
  let bufferLength := st.buffer.length
  let st1 := bwrite st "xref"
  let st1 := bwrite st1 ("0 " ++ toString (st.objectCount + 1))
  let st1 := bwrite st1 "0000000000 65535 f "
  let st1 := (List.range st.objectCount).foldl
    (fun s i => bwrite s (padLeftZeros 10 (offsetsGet st.offsets (i + 1)) ++ " 00000 n ")) st1
  let st1 := bwrite st1 "trailer"
  let st1 := bwrite st1 "<<"
  let st1 := bwrite st1 "/Root 1 0 R"
  let st1 := bwrite st1 "/Info 2 0 R"
  let st1 := bwrite st1 ("/Size " ++ toString (st.objectCount + 1))
  let st1 := bwrite st1 ">>"
  let st1 := bwrite st1 "startxref"
  let st1 := bwrite st1 (toString bufferLength)
  bwrite st1 "%%EOF"

/-- `build` from the source: fixed objects, per-page objects, font
chains, cross-reference table and trailer, then the placeholder
substitution that patches the real font references into the already
written resource dictionary (object 4). -/
def build (compress : String → String × ℕ) (tc : FontEntry → FontProgram)
    (ts : Timestamp) (doc : Doc) : BuildSt :=
  let st : BuildSt := { buffer := pdfHeader, offsets := [], objectCount := 4, objects := [] }
  let st := buildFixed ts doc.pages.length st
  let st := doc.pages.foldl (buildPageStep compress doc.pageWidth doc.pageHeight) st
  let p := buildFonts tc (st, []) doc.fonts
  let st := buildXref p.1
  let resource := p.2.foldl
    (fun s f => s ++ "/" ++ f.id ++ " " ++ toString f.resourceId ++ " 0 R ") ""
  { st with buffer := replaceFirst st.buffer "____FONTS_PLACEHOLDER____" (jsTrimStr resource) }

/-- The literal object header the cross-reference table points at. -/
def objectHeader (n : ℕ) : String := toString n ++ " 0 obj"

/-- The offset-table invariant for one object, as the specification
states it: the byte slice of the buffer at `offset[n]` begins with the
literal header `n 0 obj` (spec-side comparison definition). -/
def offsetPointsAtHeader (st : BuildSt) (n : ℕ) : Prop :=
  (objectHeader n).data.IsPrefix (st.buffer.data.drop (offsetsGet st.offsets n))

instance (st : BuildSt) (n : ℕ) : Decidable (offsetPointsAtHeader st n) := by
  unfold offsetPointsAtHeader
  infer_instance

/-! ### Drawing-call sequences (for the page-count claim) -/

inductive DrawOp where
  | insertPage
  | insertText (text : List Char) (opts : TextOptions)
deriving DecidableEq, Repr

def applyOp (measure : List Char → ℚ) (doc : Doc) : DrawOp → Except JsError Doc
  | .insertPage => .ok (insertPage doc)
  | .insertText t o => insertText doc measure t o

def applyOps (measure : List Char → ℚ) (doc : Doc) : List DrawOp → Except JsError Doc
  | [] => .ok doc
  | op :: rest => (applyOp measure doc op).bind (fun d => applyOps measure d rest)

/-- The number of Page objects among the emitted (cross-referenced)
objects. -/
def countPageObjects (st : BuildSt) : ℕ :=
  st.objects.countP (fun p => p.2 == ObjKind.page)

/-- The number of explicit `insertPage` calls in a drawing sequence. -/
def countInsertPage (ops : List DrawOp) : ℕ :=
  ops.countP (fun op => match op with | .insertPage => true | _ => false)

/-! ### Table layout (spec §4.4) -/

structure TableHeader where
  text : String
  /-- explicit per-header column width, if given -/
  width : Option ℚ
deriving DecidableEq, Repr

/-- Modelled from the spec: no table-layout code is among the source
files — only §4.4 of the specification describes `layout_table`.  Column
widths are the explicit per-header width if given, else the viewbox
width divided evenly across all headers; every cell (headers first, then
each row) is laid out by the text-layout engine (abstracted as the
`cellLayout` parameter returning the cell's operators and consumed
height); a row's height is the maximum of its cells' heights; all rows
are pre-computed, then each cell is drawn as a rectangle (the `rectOp`
parameter) overlaid with its text operators; the returned tracker
advance is the sum of the row heights.  Precondition checked before
anything is emitted: the header count must equal every row's column
count — a violation is a hard error reported to the caller, and no
operators are produced. -/
def layoutTable (viewBoxWidth : ℚ) (cellLayout : String → ℚ → List String × ℚ)
    (rectOp : ℚ → ℚ → List String) (headers : List TableHeader)
    (rows : List (List String)) : Except String (List String × ℚ) :=
  if rows.all (fun row => row.length == headers.length) then
    let colWidths := headers.map (fun hd => hd.width.getD (viewBoxWidth / (headers.length : ℚ)))
    let allRows := headers.map TableHeader.text :: rows
    let laidOut := allRows.map (fun row => (row.zip colWidths).map (fun c => cellLayout c.1 c.2))
    let rowHeights := laidOut.map (fun cells => (cells.map Prod.snd).foldl max 0)
    let ops := (laidOut.zip rowHeights).foldl (fun acc rc =>
      acc ++ (rc.1.zip colWidths).foldl (fun a cw => a ++ rectOp cw.2 rc.2 ++ cw.1.1) []) []
    .ok (ops, rowHeights.sum)
  else
    .error "Table row column count does not match header count."

/-- The well-formedness invariant of the document state that every
construction-time operation preserves: the current-page index is
non-negative and points at the last page. -/
def DocInv (doc : Doc) : Prop :=
  0 ≤ doc.currentPage ∧ doc.currentPage.toNat + 1 = doc.pages.length

/-- The accumulated per-character width of a line: the sum of the metric
values of its characters, exactly the quantity the wrap loop accumulates
in `currentWidth`. -/
def sumCharWidths (measure : List Char → ℚ) (l : List Char) : ℚ :=
  (l.map (fun c => measure [c])).sum

/-- Invariant of the wrap loop: `currentWidth` tracks the accumulated
character width of `currentLine`; `firstLineCompleted` says whether a
line has been closed; every already-closed multi-character line, and the
line under construction if multi-character, fits strictly below the
viewbox width together with its applicable offsets. -/
def WrapInv (measure : List Char → ℚ) (width x pad : ℚ) (st : WrapSt) : Prop :=
  st.currentWidth = sumCharWidths measure st.currentLine ∧
  st.firstLineCompleted = !st.lines.isEmpty ∧
  (∀ k, k < st.lines.length → 2 ≤ (st.lines.getD k []).length →
    sumCharWidths measure (st.lines.getD k []) + x + (if k = 0 then 0 else pad) < width) ∧
  (2 ≤ st.currentLine.length →
    st.currentWidth + x + (if st.firstLineCompleted then pad else 0) < width)

/-! ### Concrete fixtures for counterexamples and witnesses -/

/-- A small concrete configuration: 100 × 100 pt page, 10 pt margins, one
registered font. -/
def demoOptions : PDFOptions :=
  { formatWidth := 100
    formatHeight := 100
    orientationPortrait := true
    unit := .pt
    marginHorizontal := 10
    marginVertical := 10
    fonts := [("Helvetica", "font-url")] }

def demoDoc : Doc := mkDoc demoOptions

/-- A concrete metrics provider: every character one unit wide, no
kerning. -/
def demoMeasure : List Char → ℚ := fun l => (l.length : ℚ)

/-- The same configuration with an empty font registry. -/
def emptyFontOpts : PDFOptions :=
  { formatWidth := 100
    formatHeight := 100
    orientationPortrait := true
    unit := .pt
    marginHorizontal := 10
    marginVertical := 10
    fonts := [] }

/-- Text options selecting an explicit viewbox. -/
def demoVBOpts : TextOptions := { viewBox := some ⟨50, 50, 5, 5⟩ }

/-- The document after one `insertText` of `"Hi"` with default options
(page-sentinel viewbox) on the demo document. -/
def demoDocAfterFirstText : Doc :=
  (insertText demoDoc demoMeasure "Hi".data {}).toOption.getD demoDoc

/-- The layout result of `"Hi"` with default options on the demo
document. -/
def demoPageLayoutResult : TextResult :=
  (textLayout demoDoc demoMeasure "Hi".data {}).toOption.getD ⟨"", 0, 0, false⟩

/-- The layout result of a text containing `(`, `)` and `\` characters
on the demo document. -/
def demoParenLayoutResult : TextResult :=
  (textLayout demoDoc demoMeasure "a(b\\c".data {}).toOption.getD ⟨"", 0, 0, false⟩

/-- A concrete stand-in for the external compressor: every page content
compresses to the one-byte stream `"Z"`. -/
def demoCompress : String → String × ℕ := fun _ => ("Z", 1)

/-- A concrete stand-in for the external font transcoder. -/
def demoTranscode : FontEntry → FontProgram := fun _ => ⟨"D", 1, 2, 3, 4, 5, 6, 7, 8⟩

/-- A fixed build timestamp. -/
def demoTs : Timestamp := ⟨2024, 1, 2, 3, 4, 5⟩

/-- The built output of the freshly constructed zero-font document (the
implicit first page only). -/
def noFontBuild : BuildSt := build demoCompress demoTranscode demoTs (mkDoc emptyFontOpts)

/-- The built output of the freshly constructed one-font demo document. -/
def oneFontBuild : BuildSt := build demoCompress demoTranscode demoTs (mkDoc demoOptions)

instance {ε α : Type} [DecidableEq ε] [DecidableEq α] : DecidableEq (Except ε α) := fun a b =>
  match a, b with
  | .ok x, .ok y =>
    if h : x = y then .isTrue (by rw [h]) else .isFalse (by simp [h])
  | .error x, .error y =>
    if h : x = y then .isTrue (by rw [h]) else .isFalse (by simp [h])
  | .ok _, .error _ => .isFalse (by simp)
  | .error _, .ok _ => .isFalse (by simp)

/-- Big-endian recombination of four bytes, as the JS shift/or chain,
equals the positional value when the leading byte keeps the result below
`2^31` (so no 32-bit sign wrap occurs). -/
theorem toS32_be_bytes (a b c d : ℕ) (ha : a < 128) (hb : b < 256) (hc : c < 256)
    (hd : d < 256) :
    toS32 ((a <<< 24) ||| (b <<< 16) ||| (c <<< 8) ||| d)
      = ((a * 2 ^ 24 + b * 2 ^ 16 + c * 2 ^ 8 + d : ℕ) : ℤ) := by
  have e1 : (c <<< 8) ||| d = c * 2 ^ 8 + d := by
    rw [Nat.shiftLeft_eq, mul_comm]
    exact (Nat.mul_add_lt_is_or (by omega) c).symm
  have e2 : (b <<< 16) ||| (c * 2 ^ 8 + d) = b * 2 ^ 16 + (c * 2 ^ 8 + d) := by
    rw [Nat.shiftLeft_eq, mul_comm]
    exact (Nat.mul_add_lt_is_or (by omega) b).symm
  have e3 : (a <<< 24) ||| (b * 2 ^ 16 + (c * 2 ^ 8 + d))
      = a * 2 ^ 24 + (b * 2 ^ 16 + (c * 2 ^ 8 + d)) := by
    rw [Nat.shiftLeft_eq, mul_comm]
    exact (Nat.mul_add_lt_is_or (by omega) a).symm
  rw [Nat.or_assoc, Nat.or_assoc, e1, e2, e3]
  unfold toS32
  rw [Nat.mod_eq_of_lt (by omega)]
  rw [if_pos (by omega)]
  norm_num
  omega

/-- C2 (counterexample): with an empty font registry the constructor does
not fail — there is no configuration check at construction time — and a
subsequent default-font text layout does reach the font lookup, which
throws a `TypeError` there. -/
theorem construction_succeeds_with_empty_font_registry :
    (mkPaperBit emptyFontOpts).isOk = true ∧
    textLayout (mkDoc emptyFontOpts) (fun _ => (0 : ℚ)) "Hi".data {} = .error .typeError :=
  ⟨rfl, rfl⟩

/-- C2 (amended): construction always succeeds, even with an empty font
registry; the failure surfaces only when text layout performs the font
lookup on the empty registry, which throws (so no garbage font is ever
picked silently, but nothing fails at construction time either). -/
theorem empty_font_registry_fails_at_text_layout (o : PDFOptions) (ho : o.fonts = []) :
    (mkPaperBit o).isOk = true ∧
    ∀ (measure : List Char → ℚ) (text : List Char) (opts : TextOptions),
      textLayout (mkDoc o) measure text opts = .error .typeError := by
  have hf : (mkDoc o).fonts = [] := by
    simp [mkDoc, mkDocBase, insertPage, writeOnPage, ho]
  refine ⟨rfl, fun measure text opts => ?_⟩
  rw [textLayout, hf]

/-- C2 witness: the amended statement evaluated on the concrete
empty-registry configuration. -/
theorem empty_font_registry_fails_at_text_layout_witness :
    (mkPaperBit emptyFontOpts).isOk = true ∧
    textLayout (mkDoc emptyFontOpts) (fun _ => (1 : ℚ)) "A".data {} = .error .typeError :=
  ⟨(empty_font_registry_fails_at_text_layout emptyFontOpts rfl).1,
   (empty_font_registry_fails_at_text_layout emptyFontOpts rfl).2 _ _ _⟩

/-- C4 (counterexample): with the page-sentinel viewbox, re-invoking the
text layout with the identical text, viewbox and font after one
`insertText` produces different operator bytes: `insertText` advanced the
document's vertical tracker, so the second layout emits a different
`Td` y-coordinate (`37.50` instead of `63.00`). -/
theorem page_viewbox_relayout_differs :
    (textLayout demoDoc demoMeasure "Hi".data {}).map TextResult.buffer
      ≠ (textLayout demoDocAfterFirstText demoMeasure "Hi".data {}).map TextResult.buffer :=
  of_decide_eq_true (by with_unfolding_all rfl)

/-- C4 (amended): with an explicit viewbox the layout output is
independent of the document's vertical tracker — the only mutable state a
drawing call changes — so successive identical invocations produce
byte-identical operator output; for the page-sentinel viewbox the output
is a function of the tracker as well, and the property fails
(see the counterexample). -/
theorem explicit_viewbox_layout_cursor_independent (doc : Doc) (y1 y2 : ℚ)
    (measure : List Char → ℚ) (text : List Char) (opts : TextOptions) (vb : ViewBox)
    (h : opts.viewBox = some vb) :
    textLayout { doc with globalYTraker := y1 } measure text opts
      = textLayout { doc with globalYTraker := y2 } measure text opts := by
  cases hf : doc.fonts with
  | nil => rw [textLayout, textLayout]
  | cons f0 fs =>
    rw [textLayout, textLayout]
    simp only [hf, h, effViewBox, startCursor, Option.isNone_some]
    simp

/-- C4 witness: the amended statement evaluated at an explicit viewbox
and two different tracker values. -/
theorem explicit_viewbox_layout_cursor_independent_witness :
    textLayout { demoDoc with globalYTraker := 0 } demoMeasure "Hi".data demoVBOpts
      = textLayout { demoDoc with globalYTraker := 99 } demoMeasure "Hi".data demoVBOpts :=
  explicit_viewbox_layout_cursor_independent demoDoc 0 99 demoMeasure "Hi".data demoVBOpts
    ⟨50, 50, 5, 5⟩ rfl

/-- Counting non-empty lines is unchanged by indexing. -/
theorem countP_isEmpty_enumFrom (l : List (List Char)) (n : ℕ) :
    (List.enumFrom n l).countP (fun q => !q.2.isEmpty) = l.countP (fun x => !x.isEmpty) := by
  induction l generalizing n with
  | nil => rfl
  | cons a t ih => simp [List.enumFrom, List.countP_cons, ih]

/-- The emission loop advances the vertical cursor by exactly one line
height per non-empty line. -/
theorem emitLines_yTracker (measure : List Char → ℚ) (ctx : EmitCtx) (st : EmitSt)
    (l : List (ℕ × List Char)) :
    (emitLines measure ctx st l).yTracker
      = st.yTracker + ctx.lineHeight * (l.countP (fun p => !p.2.isEmpty) : ℚ) := by
  induction l generalizing st with
  | nil => simp [emitLines]
  | cons a t ih =>
    rw [emitLines, List.foldl_cons, ← emitLines]
    rw [ih]
    by_cases hz : a.2.length = 0
    · have : a.2.isEmpty = true := by simpa [List.isEmpty_iff, List.length_eq_zero] using hz
      simp [emitLine, hz, List.countP_cons, this]
    · have : a.2.isEmpty = false := by
        simp [List.isEmpty_iff, List.length_eq_zero]
        exact fun hnil => hz (by simp [hnil])
      simp [emitLine, hz, List.countP_cons, this]
      ring

/-- The cursor a layout starts from, as `textLayout` selects it. -/
theorem startCursor_eq (doc : Doc) (opts : TextOptions) :
    (if opts.viewBox.isNone then doc.globalYTraker else (effViewBox doc opts).y)
      = startCursor doc opts := by
  cases hv : opts.viewBox <;> simp [startCursor, effViewBox, hv]

/-- C7 (amended): the consumed height returned by a successful text
layout equals the final vertical cursor (the starting cursor advanced one
line height, `⌊fontSize / 0.75⌋`, per non-empty wrapped line) minus the
effective viewbox's y origin, plus half a line height.  For an explicit
viewbox that origin *is* the starting cursor, so the claim's
"final minus starting cursor" reading holds there (second conjunct); for
the page sentinel the origin is 0 while the starting cursor is the
document tracker, so the returned height is absolute rather than relative
to the starting cursor. -/
theorem consumed_height_eq_cursor_minus_viewbox_origin
    (doc : Doc) (measure : List Char → ℚ) (text : List Char) (opts : TextOptions)
    (res : TextResult) (h : textLayout doc measure text opts = .ok res) :
    res.height
      = finalCursor (startCursor doc opts) ((⌊opts.fontSize / 0.75⌋ : ℤ) : ℚ)
          (wrapText measure (effViewBox doc opts).width opts.coordX
            opts.paddingFromSecondLine text)
        - (effViewBox doc opts).y
        + ((⌊opts.fontSize / 0.75⌋ : ℤ) : ℚ) / 2
    ∧ ∀ vb, opts.viewBox = some vb →
        res.height
          = finalCursor (startCursor doc opts) ((⌊opts.fontSize / 0.75⌋ : ℤ) : ℚ)
              (wrapText measure (effViewBox doc opts).width opts.coordX
                opts.paddingFromSecondLine text)
            - startCursor doc opts
            + ((⌊opts.fontSize / 0.75⌋ : ℤ) : ℚ) / 2 := by
  cases hf : doc.fonts with
  | nil =>
    rw [textLayout, hf] at h
    exact absurd h (by simp)
  | cons f0 fs =>
    rw [textLayout, hf] at h
    have hres := (Except.ok.injEq _ _).mp h.symm
    have hmain : res.height
        = finalCursor (startCursor doc opts) ((⌊opts.fontSize / 0.75⌋ : ℤ) : ℚ)
            (wrapText measure (effViewBox doc opts).width opts.coordX
              opts.paddingFromSecondLine text)
          - (effViewBox doc opts).y
          + ((⌊opts.fontSize / 0.75⌋ : ℤ) : ℚ) / 2 := by
      rw [hres]
      show (emitLines measure _ _ _).yTracker - (effViewBox doc opts).y + _ = _
      rw [emitLines_yTracker]
      rw [List.enum]
      rw [countP_isEmpty_enumFrom]
      rw [startCursor_eq]
      rw [finalCursor]
      rw [wrapText]
    refine ⟨hmain, fun vb hvb => ?_⟩
    rw [hmain]
    simp [effViewBox, startCursor, hvb]

/-- C7 (counterexample): for the page-sentinel viewbox the claim's
"final cursor minus starting cursor plus half a line height" is wrong: on
the demo document (starting cursor 20, one wrapped line, line height
`⌊13 / 0.75⌋ = 17`) the code returns 45.5 = final cursor − 0 + 8.5,
whereas final − start + 8.5 = 25.5. -/
theorem page_viewbox_height_not_cursor_relative :
    (⌊(({} : TextOptions).fontSize : ℚ) / 0.75⌋ : ℤ) = 17 ∧
    (textLayout demoDoc demoMeasure "Hi".data {}).map TextResult.height = .ok (45.5 : ℚ) ∧
    finalCursor (startCursor demoDoc {}) 17
        (wrapText demoMeasure (effViewBox demoDoc {}).width 0 0 "Hi".data)
      - startCursor demoDoc {} + (17 : ℚ) / 2 = 25.5 ∧
    (45.5 : ℚ) ≠ 25.5 :=
  of_decide_eq_true (by with_unfolding_all rfl)

/-- C7 witness: the amended statement evaluated on the demo document. -/
theorem consumed_height_eq_cursor_minus_viewbox_origin_witness :
    demoPageLayoutResult.height
      = finalCursor (startCursor demoDoc {}) ((⌊({} : TextOptions).fontSize / 0.75⌋ : ℤ) : ℚ)
          (wrapText demoMeasure (effViewBox demoDoc {}).width ({} : TextOptions).coordX
            ({} : TextOptions).paddingFromSecondLine "Hi".data)
        - (effViewBox demoDoc {}).y
        + ((⌊({} : TextOptions).fontSize / 0.75⌋ : ℤ) : ℚ) / 2 :=
  (consumed_height_eq_cursor_minus_viewbox_origin demoDoc demoMeasure "Hi".data {}
    demoPageLayoutResult (of_decide_eq_true (by with_unfolding_all rfl))).1

/-- `getD` on an append, reading inside the first part. -/
theorem getD_append_left' {α : Type} (l1 l2 : List α) (k : ℕ) (d : α) (h : k < l1.length) :
    (l1 ++ l2).getD k d = l1.getD k d := by
  simp [List.getD_eq_getElem?_getD, List.getElem?_append_left h]

/-- `getD` at the append position of a one-element append. -/
theorem getD_concat_length' {α : Type} (l : List α) (a d : α) :
    (l ++ [a]).getD l.length d = a := by
  simp [List.getD_eq_getElem?_getD, List.getElem?_concat_length]

/-- The wrap-loop invariant is preserved by each character step. -/
theorem wrapStep_inv (measure : List Char → ℚ) (width x pad : ℚ) (st : WrapSt) (c : Char)
    (h : WrapInv measure width x pad st) :
    WrapInv measure width x pad (wrapStep measure width x pad st c) := by
  obtain ⟨h1, h2, h3, h4⟩ := h
  rw [wrapStep]
  by_cases hcond : width ≤ st.currentWidth + measure [c] + x
      + (if st.firstLineCompleted then pad else 0)
  · rw [if_pos hcond]
    refine ⟨by simp [sumCharWidths], ?_, ?_, ?_⟩
    · cases hfl : st.firstLineCompleted <;> simp
    · intro k hk hlen
      rcases Nat.lt_or_ge k st.lines.length with hlt | hge
      · rw [getD_append_left' _ _ _ _ hlt] at hlen ⊢
        exact h3 k hlt hlen
      · have hkeq : k = st.lines.length := by
          simp only [List.length_append, List.length_cons, List.length_nil] at hk
          omega
        subst hkeq
        rw [getD_concat_length'] at hlen ⊢
        by_cases hn : st.lines = []
        · have hk0 : st.lines.length = 0 := by simp [hn]
          have hfl : st.firstLineCompleted = false := by simp [h2, hn]
          rw [hk0, if_pos rfl]
          have h5 := h4 hlen
          rw [hfl, if_neg (by simp)] at h5
          rw [h1] at h5
          exact h5
        · have hk0 : ¬ st.lines.length = 0 := fun hz => hn (List.length_eq_zero.mp hz)
          have hfl : st.firstLineCompleted = true := by simp [h2, hn]
          rw [if_neg hk0]
          have h5 := h4 hlen
          rw [hfl, if_pos rfl] at h5
          rw [h1] at h5
          exact h5
    · intro habs
      simp at habs
  · rw [if_neg hcond]
    push_neg at hcond
    refine ⟨by simp [sumCharWidths, h1], h2, h3, ?_⟩
    intro _
    calc (st.currentWidth + measure [c]) + x + (if st.firstLineCompleted then pad else 0)
        = st.currentWidth + measure [c] + x + (if st.firstLineCompleted then pad else 0) := by ring
      _ < width := hcond

/-- The wrap-loop invariant is preserved by folding over any character
sequence. -/
theorem wrapFold_inv (measure : List Char → ℚ) (width x pad : ℚ) (text : List Char) :
    ∀ st0, WrapInv measure width x pad st0 →
      WrapInv measure width x pad (text.foldl (wrapStep measure width x pad) st0) := by
  induction text with
  | nil => exact fun st0 h => h
  | cons c t ih =>
    intro st0 h
    rw [List.foldl_cons]
    exact ih _ (wrapStep_inv measure width x pad st0 c h)

/-- The wrap loop establishes its invariant from the initial state. -/
theorem wrapRun_inv (measure : List Char → ℚ) (width x pad : ℚ) (text : List Char) :
    WrapInv measure width x pad (wrapRun measure width x pad text) := by
  rw [wrapRun]
  refine wrapFold_inv measure width x pad text _ ⟨by simp [sumCharWidths], by simp, ?_, ?_⟩
  · intro k hk
    simp at hk
  · intro habs
    simp at habs

/-- C3: every wrapped line of at least two characters fits strictly below
the viewbox width together with the left offset and, for continuation
lines (index > 0), the hanging-indent padding — so the only lines that
can meet or exceed the width are single-character lines that alone exceed
it.  The loop closes a line exactly when the next character would make
the running width plus offsets meet or exceed the viewbox width
(transcribed as the branch condition of `wrapStep`). -/
theorem wrap_lines_fit_viewbox_width (measure : List Char → ℚ) (width x pad : ℚ)
    (text : List Char) (k : ℕ)
    (hk : k < (wrapText measure width x pad text).length)
    (hlen : 2 ≤ ((wrapText measure width x pad text).getD k []).length) :
    sumCharWidths measure ((wrapText measure width x pad text).getD k []) + x
      + (if k = 0 then 0 else pad) < width := by
  obtain ⟨h1, h2, h3, h4⟩ := wrapRun_inv measure width x pad text
  rw [wrapText] at hk hlen ⊢
  by_cases hcl : (wrapRun measure width x pad text).currentLine.length ≠ 0
  · rw [if_pos hcl] at hk hlen ⊢
    rcases Nat.lt_or_ge k (wrapRun measure width x pad text).lines.length with hlt | hge
    · rw [getD_append_left' _ _ _ _ hlt] at hlen ⊢
      exact h3 k hlt hlen
    · have hkeq : k = (wrapRun measure width x pad text).lines.length := by
        simp only [List.length_append, List.length_cons, List.length_nil] at hk
        omega
      subst hkeq
      rw [getD_concat_length'] at hlen ⊢
      by_cases hn : (wrapRun measure width x pad text).lines = []
      · have hk0 : (wrapRun measure width x pad text).lines.length = 0 := by simp [hn]
        have hfl : (wrapRun measure width x pad text).firstLineCompleted = false := by
          simp [h2, hn]
        rw [hk0, if_pos rfl]
        have h5 := h4 hlen
        rw [hfl, if_neg (by simp)] at h5
        rw [h1] at h5
        exact h5
      · have hk0 : ¬ (wrapRun measure width x pad text).lines.length = 0 :=
          fun hz => hn (List.length_eq_zero.mp hz)
        have hfl : (wrapRun measure width x pad text).firstLineCompleted = true := by
          simp [h2, hn]
        rw [if_neg hk0]
        have h5 := h4 hlen
        rw [hfl, if_pos rfl] at h5
        rw [h1] at h5
        exact h5
  · rw [if_neg hcl] at hk hlen ⊢
    exact h3 k hk hlen

/-- C3 witness: with unit-width characters, width 3 and no offsets,
`"abcd"` wraps into `["ab", "cd"]` and the first line's accumulated width
2 is below 3. -/
theorem wrap_lines_fit_viewbox_width_witness :
    0 < (wrapText (fun l => (l.length : ℚ)) 3 0 0 "abcd".data).length ∧
    2 ≤ ((wrapText (fun l => (l.length : ℚ)) 3 0 0 "abcd".data).getD 0 []).length ∧
    sumCharWidths (fun l => (l.length : ℚ))
        ((wrapText (fun l => (l.length : ℚ)) 3 0 0 "abcd".data).getD 0 []) + 0
      + (if 0 = 0 then 0 else (0 : ℚ)) < 3 :=
  ⟨of_decide_eq_true (by with_unfolding_all rfl),
   of_decide_eq_true (by with_unfolding_all rfl),
   wrap_lines_fit_viewbox_width (fun l => (l.length : ℚ)) 3 0 0 "abcd".data 0
     (of_decide_eq_true (by with_unfolding_all rfl))
     (of_decide_eq_true (by with_unfolding_all rfl))⟩

/-- C5: image classification by leading signature bytes fails on the code:
`getImageType` chains the per-byte signature comparisons with `||` instead
of `&&`.  The input `[0x00, 0x50, 0x00, 0x00]` matches neither the PNG nor
the JPEG signature yet is classified as PNG instead of raising the
unsupported-format error, and `[0xFF, 0xD8, 0x4E, 0x00]` matches the JPEG
signature yet is also classified as PNG.  The sibling `getImageDimensions`
implements the very same signature tests with `&&`, showing the `||` is a
slip. -/
theorem getImageType_signature_bug :
    getImageType [0x00, 0x50, 0x00, 0x00] = .ok .png ∧
    pngSignature [0x00, 0x50, 0x00, 0x00] = false ∧
    jpegSignature [0x00, 0x50, 0x00, 0x00] = false ∧
    getImageType [0xff, 0xd8, 0x4e, 0x00] = .ok .png ∧
    jpegSignature [0xff, 0xd8, 0x4e, 0x00] = true := by
  decide

/-- C8: for every well-formed PNG input (correct signature, width `W` and
height `H` stored big-endian at byte offsets 16–23, below `2^31` as the
PNG format requires), the image pipeline `imageTransformer` succeeds and
its declared `width`/`height` fields equal `W` and `H` exactly, for any
external decoder and compressor. -/
theorem png_dimensions_roundtrip (pngDecode deflate : List ℕ → List ℕ) (u : List ℕ)
    (w0 w1 w2 w3 h0 h1 h2 h3 : ℕ)
    (hs0 : u[0]? = some 0x89) (hs1 : u[1]? = some 0x50)
    (hs2 : u[2]? = some 0x4e) (hs3 : u[3]? = some 0x47)
    (h16 : u[16]? = some w0) (h17 : u[17]? = some w1)
    (h18 : u[18]? = some w2) (h19 : u[19]? = some w3)
    (h20 : u[20]? = some h0) (h21 : u[21]? = some h1)
    (h22 : u[22]? = some h2) (h23 : u[23]? = some h3)
    (hw0 : w0 < 128) (hw1 : w1 < 256) (hw2 : w2 < 256) (hw3 : w3 < 256)
    (hh0 : h0 < 128) (hh1 : h1 < 256) (hh2 : h2 < 256) (hh3 : h3 < 256) :
    ∃ r, imageTransformer pngDecode deflate u = .ok r ∧
      r.width = ((w0 * 2 ^ 24 + w1 * 2 ^ 16 + w2 * 2 ^ 8 + w3 : ℕ) : ℤ) ∧
      r.height = ((h0 * 2 ^ 24 + h1 * 2 ^ 16 + h2 * 2 ^ 8 + h3 : ℕ) : ℤ) := by
  have hlen : ¬ u.length < 24 := by
    obtain ⟨hlt, -⟩ := List.getElem?_eq_some_iff.1 h23
    omega
  have htype : getImageType u = .ok .png := by
    simp [getImageType, hs0]
  have hpng : getPngDimensions u
      = .ok { width := ((w0 * 2 ^ 24 + w1 * 2 ^ 16 + w2 * 2 ^ 8 + w3 : ℕ) : ℤ)
              height := ((h0 * 2 ^ 24 + h1 * 2 ^ 16 + h2 * 2 ^ 8 + h3 : ℕ) : ℤ) } := by
    simp only [getPngDimensions, hs0, hs1, hs2, hs3, List.getD_eq_getElem?_getD,
      h16, h17, h18, h19, h20, h21, h22, h23, Option.getD_some]
    rw [if_neg (by simp)]
    rw [toS32_be_bytes _ _ _ _ hw0 hw1 hw2 hw3, toS32_be_bytes _ _ _ _ hh0 hh1 hh2 hh3]
  have hdims : getImageDimensions u
      = .ok { width := ((w0 * 2 ^ 24 + w1 * 2 ^ 16 + w2 * 2 ^ 8 + w3 : ℕ) : ℤ)
              height := ((h0 * 2 ^ 24 + h1 * 2 ^ 16 + h2 * 2 ^ 8 + h3 : ℕ) : ℤ) } := by
    rw [getImageDimensions, if_neg hlen, if_pos (by simp [hs0, hs1, hs2, hs3]), hpng]
  have hmain : imageTransformer pngDecode deflate u
      = .ok { compressedImage := deflate (rgbOfRgba
                ((((w0 * 2 ^ 24 + w1 * 2 ^ 16 + w2 * 2 ^ 8 + w3 : ℕ) : ℤ)).toNat
                  * (((h0 * 2 ^ 24 + h1 * 2 ^ 16 + h2 * 2 ^ 8 + h3 : ℕ) : ℤ)).toNat * 3)
                (pngDecode u))
              type := .png
              length := (deflate (rgbOfRgba
                ((((w0 * 2 ^ 24 + w1 * 2 ^ 16 + w2 * 2 ^ 8 + w3 : ℕ) : ℤ)).toNat
                  * (((h0 * 2 ^ 24 + h1 * 2 ^ 16 + h2 * 2 ^ 8 + h3 : ℕ) : ℤ)).toNat * 3)
                (pngDecode u))).length
              width := ((w0 * 2 ^ 24 + w1 * 2 ^ 16 + w2 * 2 ^ 8 + w3 : ℕ) : ℤ)
              height := ((h0 * 2 ^ 24 + h1 * 2 ^ 16 + h2 * 2 ^ 8 + h3 : ℕ) : ℤ) } := by
    rw [imageTransformer, htype, hdims]
    rfl
  exact ⟨_, hmain, rfl, rfl⟩

/-- C8 witness: a concrete 24-byte PNG header declaring width 2 and
height 3 round-trips through the pipeline. -/
theorem png_dimensions_roundtrip_witness :
    ∃ r, imageTransformer (fun _ => []) (fun _ => [])
        [0x89, 0x50, 0x4e, 0x47, 0x0d, 0x0a, 0x1a, 0x0a, 0, 0, 0, 13,
         0x49, 0x48, 0x44, 0x52, 0, 0, 0, 2, 0, 0, 0, 3] = .ok r ∧
      r.width = ((0 * 2 ^ 24 + 0 * 2 ^ 16 + 0 * 2 ^ 8 + 2 : ℕ) : ℤ) ∧
      r.height = ((0 * 2 ^ 24 + 0 * 2 ^ 16 + 0 * 2 ^ 8 + 3 : ℕ) : ℤ) :=
  png_dimensions_roundtrip (fun _ => []) (fun _ => []) _ 0 0 0 2 0 0 0 3
    rfl rfl rfl rfl rfl rfl rfl rfl rfl rfl rfl rfl
    (by decide) (by decide) (by decide) (by decide)
    (by decide) (by decide) (by decide) (by decide)

set_option maxRecDepth 10000 in
/-- C1 (code bug): the recorded offsets do not point at the object
headers in the final buffer.  On the freshly constructed zero-font
document, offsets 1 and 4 are correct but the offset recorded for object
5 (the first Page object) points 25 bytes past the real `5 0 obj`
header: the final placeholder substitution removes the 25-character
`____FONTS_PLACEHOLDER____` token from object 4 (replacing it with the
empty resource list) after every later offset was captured.  With one
registered font the font-file stream object is displaced twice: by the
substitution (25 − 9 = 16 bytes here) and by `putFont`'s re-recording of
its offset after the 8-byte `9 0 obj\n` header was already written. -/
theorem build_offsets_corrupted_by_placeholder :
    offsetPointsAtHeader noFontBuild 1 ∧
    offsetPointsAtHeader noFontBuild 4 ∧
    ¬ offsetPointsAtHeader noFontBuild 5 ∧
    (objectHeader 5).data.IsPrefix
      (noFontBuild.buffer.data.drop (offsetsGet noFontBuild.offsets 5 - 25)) ∧
    ¬ offsetPointsAtHeader oneFontBuild 9 ∧
    (objectHeader 9).data.IsPrefix
      (oneFontBuild.buffer.data.drop (offsetsGet oneFontBuild.offsets 9 - 16 - 8)) :=
  of_decide_eq_true (by with_unfolding_all rfl)

/-- A fold of plain `write`s never emits objects. -/
theorem foldl_bwrite_objects {α : Type} (g : α → String) (l : List α) (st : BuildSt) :
    (l.foldl (fun s a => bwrite s (g a)) st).objects = st.objects := by
  induction l generalizing st with
  | nil => rfl
  | cons a t ih => rw [List.foldl_cons]; rw [ih]; rfl

/-- Each page-loop iteration emits exactly one Page object (plus its
Contents stream). -/
theorem countPage_buildPageStep (c : String → String × ℕ) (pw ph : ℚ) (st : BuildSt)
    (pc : String) :
    (buildPageStep c pw ph st pc).objects.countP (fun p => p.2 == ObjKind.page)
      = st.objects.countP (fun p => p.2 == ObjKind.page) + 1 := by
  simp [buildPageStep, createObject, bwrite, createStream, List.countP_append,
    List.countP_cons]

/-- The page loop emits one Page object per accumulated page. -/
theorem countPage_pagesFold (c : String → String × ℕ) (pw ph : ℚ) (pages : List String)
    (st : BuildSt) :
    (pages.foldl (buildPageStep c pw ph) st).objects.countP (fun p => p.2 == ObjKind.page)
      = st.objects.countP (fun p => p.2 == ObjKind.page) + pages.length := by
  induction pages generalizing st with
  | nil => rfl
  | cons p t ih =>
    rw [List.foldl_cons, ih, countPage_buildPageStep]
    simp
    omega

/-- `putFont` emits no Page object. -/
theorem countPage_putFont (tc : FontEntry → FontProgram) (st : BuildSt) (f : FontEntry) :
    (putFont tc st f).1.objects.countP (fun p => p.2 == ObjKind.page)
      = st.objects.countP (fun p => p.2 == ObjKind.page) := by
  simp [putFont, createObject, bwrite, createStream, List.countP_append, List.countP_cons]

/-- The font loop emits no Page objects. -/
theorem countPage_buildFonts (tc : FontEntry → FontProgram) (fonts : List FontEntry)
    (p : BuildSt × List FontEntry) :
    (buildFonts tc p fonts).1.objects.countP (fun q => q.2 == ObjKind.page)
      = p.1.objects.countP (fun q => q.2 == ObjKind.page) := by
  induction fonts generalizing p with
  | nil => rfl
  | cons f t ih =>
    rw [buildFonts, List.foldl_cons, ← buildFonts, ih]
    exact countPage_putFont tc p.1 f

/-- The fixed leading objects contain no Page object (the page-tree root
is `/Type/Pages`, not a Page). -/
theorem countPage_buildFixed (ts : Timestamp) (n : ℕ) (st : BuildSt) :
    (buildFixed ts n st).objects.countP (fun p => p.2 == ObjKind.page)
      = st.objects.countP (fun p => p.2 == ObjKind.page) := by
  simp [buildFixed, bwrite, List.countP_append, List.countP_cons]

/-- `write` does not emit objects. -/
theorem bwrite_objects (st : BuildSt) (s : String) : (bwrite st s).objects = st.objects := rfl

/-- The cross-reference table and trailer emit no objects. -/
theorem buildXref_objects (st : BuildSt) : (buildXref st).objects = st.objects := by
  rw [buildXref]
  simp only [bwrite_objects]
  rw [foldl_bwrite_objects (fun i => padLeftZeros 10 (offsetsGet st.offsets (i + 1)) ++ " 00000 n ")]
  simp only [bwrite_objects]

/-- `build` emits exactly one Page object per page of the document
state. -/
theorem build_countPage (compress : String → String × ℕ) (tc : FontEntry → FontProgram)
    (ts : Timestamp) (doc : Doc) :
    countPageObjects (build compress tc ts doc) = doc.pages.length := by
  simp only [countPageObjects, build]
  rw [buildXref_objects, countPage_buildFonts, countPage_pagesFold, countPage_buildFixed]
  simp

/-- Appending operators to the current page neither adds nor removes
pages. -/
theorem writeOnPage_pages (doc : Doc) (content : String) (h : DocInv doc) :
    (writeOnPage doc content).pages.length = doc.pages.length ∧
    DocInv (writeOnPage doc content) := by
  obtain ⟨h0, h1⟩ := h
  have hlt : doc.currentPage.toNat < doc.pages.length := by omega
  constructor
  · simp only [writeOnPage, jsArraySet]
    rw [if_neg (by omega), if_pos hlt]
    simp
  · refine ⟨h0, ?_⟩
    simp only [writeOnPage, jsArraySet]
    rw [if_neg (by omega), if_pos hlt]
    simpa using h1

/-- `insertPage` adds exactly one page.  (The hypotheses also cover the
constructor's very first call, where `currentPage` is still −1.) -/
theorem insertPage_pages (doc : Doc) (h0 : -1 ≤ doc.currentPage)
    (h1 : (doc.currentPage + 1).toNat = doc.pages.length) :
    (insertPage doc).pages.length = doc.pages.length + 1 ∧
    DocInv (insertPage doc) := by
  have hmid : (jsArraySet doc.pages (doc.currentPage + 1) "").length
      = doc.pages.length + 1 := by
    simp only [jsArraySet]
    rw [if_neg (by omega), if_neg (by omega)]
    have : (doc.currentPage + 1).toNat - doc.pages.length = 0 := by omega
    simp [this]
  have hinv : DocInv { doc with
      currentPage := doc.currentPage + 1
      pages := jsArraySet doc.pages (doc.currentPage + 1) "" } := by
    refine ⟨by simp; omega, ?_⟩
    simp only [hmid]
    simp
    omega
  have hw := writeOnPage_pages _ (fmtFixed 2 (lineWidthConst * doc.scaleFactor) ++ " w") hinv
  rw [insertPage]
  refine ⟨?_, hw.2⟩
  rw [hw.1]
  simp [hmid]

/-- A successful `insertText` does not change the number of pages. -/
theorem insertText_pages (doc : Doc) (measure : List Char → ℚ) (t : List Char)
    (o : TextOptions) (d' : Doc) (h : insertText doc measure t o = .ok d')
    (hinv : DocInv doc) :
    d'.pages.length = doc.pages.length ∧ DocInv d' := by
  rw [insertText] at h
  cases hl : textLayout doc measure t o with
  | error e =>
    rw [hl] at h
    exact absurd h (by simp)
  | ok r =>
    rw [hl] at h
    replace h : (if r.isViewBoxPage then
        (Except.ok { writeOnPage doc r.buffer with globalYTraker := r.height } : Except JsError Doc)
      else Except.ok (writeOnPage doc r.buffer)) = Except.ok d' := h
    have hw := writeOnPage_pages doc r.buffer hinv
    by_cases hp : r.isViewBoxPage
    · rw [if_pos hp] at h
      have hd : d' = { writeOnPage doc r.buffer with globalYTraker := r.height } := by
        injection h with h2
        exact h2.symm
      subst hd
      exact ⟨hw.1, hw.2.1, by simpa using hw.2.2⟩
    · rw [if_neg hp] at h
      have hd : d' = writeOnPage doc r.buffer := by
        injection h with h2
        exact h2.symm
      subst hd
      exact hw

/-- Construction creates exactly the implicit first page. -/
theorem mkDoc_pages (o : PDFOptions) :
    (mkDoc o).pages.length = 1 ∧ DocInv (mkDoc o) := by
  rw [mkDoc]
  have h := insertPage_pages (mkDocBase o) (by simp [mkDocBase]) (by simp [mkDocBase])
  exact ⟨by simpa [mkDocBase] using h.1, h.2⟩

/-- Over any drawing sequence, the page count grows exactly by the
number of `insertPage` calls. -/
theorem applyOps_pages (measure : List Char → ℚ) (ops : List DrawOp) :
    ∀ doc d', DocInv doc → applyOps measure doc ops = .ok d' →
      d'.pages.length = doc.pages.length + countInsertPage ops ∧ DocInv d' := by
  induction ops with
  | nil =>
    intro doc d' hinv h
    rw [applyOps] at h
    injection h with h'
    subst h'
    simp [countInsertPage]
    exact hinv
  | cons op rest ih =>
    intro doc d' hinv h
    rw [applyOps] at h
    cases op with
    | insertPage =>
      simp only [applyOp, Except.bind] at h
      obtain ⟨hi0, hi1⟩ := hinv
      have hp := insertPage_pages doc (by omega) (by omega)
      have := ih (insertPage doc) d' hp.2 h
      refine ⟨?_, this.2⟩
      rw [this.1, hp.1]
      simp [countInsertPage, List.countP_cons]
      omega
    | insertText t o =>
      simp only [applyOp] at h
      cases hins : insertText doc measure t o with
      | error e => rw [hins] at h; exact absurd h (by simp [Except.bind])
      | ok d1 =>
        rw [hins] at h
        simp only [Except.bind] at h
        have hp := insertText_pages doc measure t o d1 hins hinv
        have := ih d1 d' hp.2 h
        refine ⟨?_, this.2⟩
        rw [this.1, hp.1]
        simp [countInsertPage, List.countP_cons]

/-- C6: for every sequence of `insertPage`/`insertText` calls on a
freshly constructed document, the number of Page objects among the
objects listed in the cross-reference table of `build()` equals the
number of `insertPage` calls, counting the implicit first page created at
construction. -/
theorem page_object_count_eq_insertPage_calls (o : PDFOptions) (measure : List Char → ℚ)
    (ops : List DrawOp) (doc' : Doc)
    (h : applyOps measure (mkDoc o) ops = .ok doc')
    (compress : String → String × ℕ) (tc : FontEntry → FontProgram) (ts : Timestamp) :
    countPageObjects (build compress tc ts doc') = 1 + countInsertPage ops := by
  rw [build_countPage]
  obtain ⟨hm1, hm2⟩ := mkDoc_pages o
  obtain ⟨h1, -⟩ := applyOps_pages measure ops (mkDoc o) doc' hm2 h
  omega

/-- C6 witness: one `insertText` and one explicit `insertPage` on the
demo document yield two Page objects. -/
theorem page_object_count_eq_insertPage_calls_witness :
    countPageObjects (build (fun _ => ("Z", 1)) (fun _ => ⟨"D", 1, 2, 3, 4, 5, 6, 7, 8⟩)
        ⟨2024, 1, 2, 3, 4, 5⟩
        ((applyOps demoMeasure (mkDoc demoOptions)
            [.insertText "Hi".data {}, .insertPage]).toOption.getD (mkDoc demoOptions)))
      = 1 + countInsertPage [.insertText "Hi".data {}, .insertPage] :=
  page_object_count_eq_insertPage_calls demoOptions demoMeasure
    [.insertText "Hi".data {}, .insertPage] _ (of_decide_eq_true (by with_unfolding_all rfl))
    (fun _ => ("Z", 1)) (fun _ => ⟨"D", 1, 2, 3, 4, 5, 6, 7, 8⟩) ⟨2024, 1, 2, 3, 4, 5⟩

/-- The placement operator splits around the parenthesised line. -/
theorem tdOperator_split (x y : ℚ) (t : List Char) :
    (tdOperator x y t).data
      = ("BT " ++ fmtFixed 2 x ++ " " ++ fmtFixed 2 y ++ " Td ").data
        ++ ("(".data ++ t ++ ")".data) ++ " Tj ET".data := by
  simp [tdOperator, String.data_append]

/-- The parenthesised line text occurs verbatim inside the placement
operator. -/
theorem tdOperator_embeds_parens (x y : ℚ) (t : List Char) :
    ("(".data ++ t ++ ")".data) <:+: (tdOperator x y t).data := by
  refine ⟨("BT " ++ fmtFixed 2 x ++ " " ++ fmtFixed 2 y ++ " Td ").data, " Tj ET".data, ?_⟩
  rw [tdOperator_split]

/-- The emission loop only appends to the buffer. -/
theorem emitLines_buf_mono (measure : List Char → ℚ) (ctx : EmitCtx) (st : EmitSt)
    (l : List (ℕ × List Char)) :
    st.buf.data <+: (emitLines measure ctx st l).buf.data := by
  induction l generalizing st with
  | nil => exact List.prefix_refl _
  | cons a t ih =>
    rw [emitLines, List.foldl_cons, ← emitLines]
    refine List.IsPrefix.trans ?_ (ih _)
    rw [emitLine]
    by_cases hz : a.2.length = 0
    · rw [if_pos hz]
    · rw [if_neg hz]
      show st.buf.data <+: (st.buf ++ _ ++ "\n").data
      rw [String.data_append, String.data_append, List.append_assoc]
      exact List.prefix_append _ _

/-- The parenthesised line survives surrounding buffer context. -/
theorem infix_of_append_tdOperator (s tail : String) (x y : ℚ) (t : List Char) :
    ("(".data ++ t ++ ")".data) <:+: (s ++ tdOperator x y t ++ tail).data := by
  refine List.IsInfix.trans (tdOperator_embeds_parens x y t) ?_
  rw [String.data_append, String.data_append]
  exact ⟨s.data, tail.data, by simp [List.append_assoc]⟩

/-- A non-empty line's emission embeds the trimmed line verbatim between
parentheses. -/
theorem emitLine_embeds (measure : List Char → ℚ) (ctx : EmitCtx) (st : EmitSt) (i : ℕ)
    (line : List Char) (hz : ¬ line.length = 0) :
    ("(".data ++ trimChars line ++ ")".data) <:+: (emitLine measure ctx st i line).buf.data := by
  simp only [emitLine, if_neg hz]
  exact infix_of_append_tdOperator _ _ _ _ _

/-- Every non-empty line handed to the emission loop appears verbatim,
parenthesised, in the resulting buffer. -/
theorem emitLines_embeds_lines (measure : List Char → ℚ) (ctx : EmitCtx) (st : EmitSt)
    (l : List (ℕ × List Char)) (i : ℕ) (line : List Char)
    (hmem : (i, line) ∈ l) (hne : line ≠ []) :
    ("(".data ++ trimChars line ++ ")".data) <:+: (emitLines measure ctx st l).buf.data := by
  induction l generalizing st with
  | nil => exact absurd hmem (List.not_mem_nil _)
  | cons a t ih =>
    rw [emitLines, List.foldl_cons, ← emitLines]
    rcases List.mem_cons.mp hmem with heq | htail
    · obtain rfl := heq.symm
      have hz : ¬ ((i, line).2).length = 0 := by
        simpa [List.length_eq_zero] using hne
      exact List.IsInfix.trans (emitLine_embeds measure ctx st (i, line).1 (i, line).2 hz)
        ((emitLines_buf_mono measure ctx _ t).isInfix)
    · exact ih _ htail

/-- A list member appears at some index of its enumeration. -/
theorem exists_mem_enumFrom {α : Type} {x : α} {l : List α} (h : x ∈ l) (n : ℕ) :
    ∃ i, (i, x) ∈ l.enumFrom n := by
  induction l generalizing n with
  | nil => exact absurd h (List.not_mem_nil _)
  | cons a t ih =>
    rcases List.mem_cons.mp h with rfl | htail
    · exact ⟨n, by simp [List.enumFrom]⟩
    · obtain ⟨i, hi⟩ := ih htail (n + 1)
      exact ⟨i, by simp [List.enumFrom, hi]⟩

/-- C10: for every input, each text-placement operator emitted by the
text layout embeds the wrapped line's trimmed characters verbatim between
the parentheses of its `Td (...) Tj` operator — no escaping is applied,
so `(`, `)` and `\` in the input reach the content stream unchanged. -/
theorem text_operator_embeds_line_verbatim (doc : Doc) (measure : List Char → ℚ)
    (text : List Char) (opts : TextOptions) (res : TextResult)
    (h : textLayout doc measure text opts = .ok res) (l : List Char)
    (hl : l ∈ wrapText measure (effViewBox doc opts).width opts.coordX
      opts.paddingFromSecondLine text)
    (hne : l ≠ []) :
    ("(".data ++ trimChars l ++ ")".data) <:+: res.buffer.data := by
  cases hf : doc.fonts with
  | nil =>
    rw [textLayout, hf] at h
    exact absurd h (by simp)
  | cons f0 fs =>
    rw [textLayout, hf] at h
    have hres := (Except.ok.injEq _ _).mp h.symm
    rw [hres]
    show ("(".data ++ trimChars l ++ ")".data) <:+: (emitLines measure _ _ _).buf.data
    obtain ⟨i, hi⟩ := exists_mem_enumFrom hl 0
    exact emitLines_embeds_lines measure _ _ _ i l (by rw [List.enum]; exact hi) hne

/-- C10 witness: the layout of `"a(b\c"` emits
`BT 10.00 63.00 Td (a(b\c) Tj ET` with the parentheses and backslash
unescaped. -/
theorem text_operator_embeds_line_verbatim_witness :
    ("(".data ++ trimChars "a(b\\c".data ++ ")".data) <:+: demoParenLayoutResult.buffer.data :=
  text_operator_embeds_line_verbatim demoDoc demoMeasure "a(b\\c".data {}
    demoParenLayoutResult (of_decide_eq_true (by with_unfolding_all rfl)) "a(b\\c".data
    (of_decide_eq_true (by with_unfolding_all rfl)) (by decide)

/-- C9: for every non-empty header set, table layout rejects with a hard
error any row whose column count differs from the header count, emitting
no operators (the error result carries no partial table). -/
theorem table_rejects_column_count_mismatch (viewBoxWidth : ℚ)
    (cellLayout : String → ℚ → List String × ℚ) (rectOp : ℚ → ℚ → List String)
    (headers : List TableHeader) (rows : List (List String)) (row : List String)
    (hne : headers ≠ []) (hrow : row ∈ rows) (hmis : row.length ≠ headers.length) :
    layoutTable viewBoxWidth cellLayout rectOp headers rows
      = .error "Table row column count does not match header count." := by
  rw [layoutTable, if_neg]
  intro hall
  exact hmis (by simpa using List.all_eq_true.mp hall row hrow)

/-- C9 witness: two headers, one one-column row. -/
theorem table_rejects_column_count_mismatch_witness :
    layoutTable 100 (fun s _ => ([s], 1)) (fun _ _ => ["re"])
        [⟨"A", none⟩, ⟨"B", none⟩] [["x"]]
      = .error "Table row column count does not match header count." :=
  table_rejects_column_count_mismatch 100 (fun s _ => ([s], 1)) (fun _ _ => ["re"])
    [⟨"A", none⟩, ⟨"B", none⟩] [["x"]] ["x"] (by decide) (by decide) (by decide)

end PaperBit
